import Mathlib

/-!
Verification of the quote-wrangling utility module (`functions.py`).

Tables (pandas DataFrames) are modelled as Lean lists of typed rows; a row
type carries the columns a function touches plus a polymorphic `rest` field
standing for all other columns.  Sentiment scores, thresholds, extracted
probabilities and cutoffs are modelled as rationals (`ℚ`).

Python functions that may mutate their argument DataFrame are modelled in
state-passing style: they return a pair whose first component is the caller's
DataFrame as it looks after the call (so `df.copy()`-based functions return
the input unchanged there, while in-place column assignment shows up as a
changed first component), and whose second component is the Python return
value.

The file system touched by `chunkify` is modelled as an association list from
path strings to file contents; a file content remembers whether it is a plain
CSV or a bz2-compressed CSV, and which rows it serializes.
-/

/-! ### Sentiment scoring and categorization (`add_polarity_score_to_df`, `add_sentiment_category`) -/

/-- A row of a DataFrame that has a `quotation` column; `rest` stands for the
remaining columns. -/
structure QRow (α : Type) where
  rest : α
  quotation : String
deriving DecidableEq

/-- A row with `quotation` and the derived `sentiment` column. -/
structure QSRow (α : Type) where
  rest : α
  quotation : String
  sentiment : ℚ
deriving DecidableEq

/-- A row of a DataFrame that has a `sentiment` column. -/
structure SRow (α : Type) where
  rest : α
  sentiment : ℚ
deriving DecidableEq

/-- A row with `sentiment` and the derived `sentiment_category` column. -/
structure SCRow (α : Type) where
  rest : α
  sentiment : ℚ
  sentiment_category : Int
deriving DecidableEq

/-- The inner `categorize` closure of `add_sentiment_category`
(functions.py lines 211-217): `if score <= neg_treshhold: return -1
elif score >= pos_treshhold: return 1 else: return 0`. -/
def categorize (neg_treshhold pos_treshhold score : ℚ) : Int :=
  if score ≤ neg_treshhold then -1
  else if pos_treshhold ≤ score then 1
  else 0

/-- `add_polarity_score_to_df` (functions.py lines 176-194).  The sentiment
analyzer (`SentimentIntensityAnalyzer().polarity_scores(...)['compound']`) is
an injected function `sid : String → ℚ`.  The code copies the DataFrame
(`df_copy = df.copy()`), adds the `sentiment` column to the copy by applying
the analyzer to each row's `quotation`, and returns the copy.  The first
component of the result is the caller's DataFrame after the call. -/
def add_polarity_score_to_df (sid : String → ℚ) (df : List (QRow α)) :
    List (QRow α) × List (QSRow α) :=
  let df_copy := df
  (df, df_copy.map (fun r => ⟨r.rest, r.quotation, sid r.quotation⟩))

/-- `add_sentiment_category` (functions.py lines 196-221): copies the
DataFrame and adds a `sentiment_category` column obtained by applying
`categorize` to each row's `sentiment`.  The first component of the result is
the caller's DataFrame after the call. -/
def add_sentiment_category (df : List (SRow α)) (neg_treshhold pos_treshhold : ℚ) :
    List (SRow α) × List (SCRow α) :=
  let df_copy := df
  (df, df_copy.map (fun r =>
    ⟨r.rest, r.sentiment, categorize neg_treshhold pos_treshhold r.sentiment⟩))

/-! ### Confidence filter (`high_probability_quotes`) -/

/-- Numeric value of an ASCII digit character. -/
def digitVal (c : Char) : Nat := c.toNat - 48

/-- Value of a digit string read left to right in base 10. -/
def natOfDigits (ds : List Char) : Nat := ds.foldl (fun a c => 10 * a + digitVal c) 0

/-- The first match of the regular expression `[\d][.][\d]*` in a character
list: the leftmost position holding a digit immediately followed by `'.'`,
returned as that digit together with the (greedy, possibly empty) run of
digits after the dot. -/
def findDecimalMatch : List Char → Option (Char × List Char)
  | [] => none
  | [_] => none
  | c :: d :: rest =>
    if c.isDigit && (d == '.') then some (c, rest.takeWhile Char.isDigit)
    else findDecimalMatch (d :: rest)

/-- The rational value of a matched decimal literal `c.ds` (what Python's
`float` cast yields on the matched text). -/
def ratOfMatch (c : Char) (ds : List Char) : ℚ :=
  ((digitVal c * 10 ^ ds.length + natOfDigits ds : ℕ) : ℚ) / ((10 ^ ds.length : ℕ) : ℚ)

/-- `df['probas'].str.extract(r'([\d][.][\d]*)').astype('float')` applied to
one cell: the first decimal-number substring as a rational, or `none` (NaN)
when the pattern does not occur. -/
def extractFirstDecimal (s : String) : Option ℚ :=
  (findDecimalMatch s.data).map (fun p => ratOfMatch p.1 p.2)

/-- A row of a DataFrame that has a string `probas` column. -/
structure PRow (α : Type) where
  rest : α
  probas : String
deriving DecidableEq

/-- A row with `probas` and the derived `probasE` column (NaN modelled as
`none`). -/
structure PERow (α : Type) where
  rest : α
  probas : String
  probasE : Option ℚ
deriving DecidableEq

/-- Adding the `probasE` column to one row. -/
def extendP (r : PRow α) : PERow α := ⟨r.rest, r.probas, extractFirstDecimal r.probas⟩

/-- The Boolean test `df['probasE'] >= cutoff` on one row: a missing value
(NaN) compares false. -/
def probasGe (cutoff : ℚ) (r : PERow α) : Bool :=
  match r.probasE with
  | some v => decide (cutoff ≤ v)
  | none => false

/-- `high_probability_quotes` (functions.py lines 114-121).  The code assigns
the extracted float column directly on its argument
(`df['probasE'] = df['probas'].str.extract(...).astype('float')`, no copy)
and returns `df[df['probasE'] >= cutoff]`.  The first component of the result
is the caller's DataFrame after the call (it has gained the `probasE`
column); the second is the returned filtered DataFrame. -/
def high_probability_quotes (df : List (PRow α)) (cutoff : ℚ) :
    List (PERow α) × List (PERow α) :=
  let df1 := df.map extendP
  (df1, df1.filter (probasGe cutoff))

/-! ### Organization extraction (`create_org_df`) -/

/-- One entity produced by the named-entity recognizer: surface text and
label. -/
structure Ent where
  text : String
  label : String
deriving DecidableEq

/-- A quote record as consumed by `create_org_df`: the columns the loop
reads. -/
structure QuoteRec where
  date : String
  numOccurrences : Nat
  quotation : String
  quoteID : String
  probas : String
deriving DecidableEq

/-- One output row of `create_org_df`: the ORG surface text plus the columns
carried over from the source row. -/
structure OrgRow where
  ORG : String
  date : String
  numOccurrences : Nat
  quotation : String
  quoteID : String
  probas : String
deriving DecidableEq

/-- The dictionary built for one ORG mention (functions.py lines 144-151). -/
def mkOrgRow (text : String) (r : QuoteRec) : OrgRow :=
  ⟨text, r.date, r.numOccurrences, r.quotation, r.quoteID, r.probas⟩

/-- The `quote_list` built by the double loop of `create_org_df`
(functions.py lines 136-151): for each row in order, one entry per entity of
the recognizer's output on the row's quotation whose label is `ORG`. -/
def orgMentions (nlp : String → List Ent) (df : List QuoteRec) : List OrgRow :=
  df.flatMap (fun r =>
    (nlp r.quotation).filterMap (fun e =>
      if e.label == "ORG" then some (mkOrgRow e.text r) else none))

/-- `DataFrame.drop_duplicates()`: keep the first occurrence of each row,
preserving order. -/
def dropDuplicates [DecidableEq β] : List β → List β
  | [] => []
  | x :: xs => x :: dropDuplicates (xs.filter (fun y => decide (y ≠ x)))
termination_by l => l.length
decreasing_by
  simp only [List.length_cons]
  exact Nat.lt_succ_of_le (List.length_filter_le _ _)

/-- `create_org_df` (functions.py lines 123-162).  The recognizer
(`spacy.load(spacy_model)` applied to a text, restricted to its `.ents` with
`.label_` and `.text`) is the injected function `nlp`. -/
def create_org_df (nlp : String → List Ent) (df : List QuoteRec) : List OrgRow :=
  let quote_list := orgMentions nlp df
  let org_df := quote_list
  let org_df := dropDuplicates org_df
  org_df

/-! ### Directory scan and speaker extraction (`find_csv_filenames`, `get_quotes`) -/

/-- A row of a chunk file, as read by `get_quotes`: the `speaker` column plus
the rest of the columns. -/
structure SpRow (α : Type) where
  rest : α
  speaker : String
deriving DecidableEq

/-- The `Data/` directory: an association list from file name to the rows the
file holds. -/
abbrev DataDir (α : Type) : Type := List (String × List (SpRow α))

/-- `os.listdir`: the file names of the directory, in listing order. -/
def listNames (dir : DataDir α) : List String := dir.map Prod.fst

/-- Python's `str.startswith`: the candidate's characters are an initial
segment of the string's characters. -/
def pyStartsWith (s pre : String) : Bool := pre.data.isPrefixOf s.data

/-- `find_csv_filenames` (functions.py lines 53-58): the names in the listing
that start with `"quotes-<year>-"`. -/
def find_csv_filenames (filenames : List String) (year : Nat) : List String :=
  filenames.filter (fun filename => pyStartsWith filename ("quotes-" ++ toString year ++ "-"))

/-- `pd.read_csv` on a file of the data directory: `none` models the I/O
error raised on a missing file. -/
def read_csv (dir : DataDir α) (name : String) : Option (List (SpRow α)) :=
  (dir.find? (fun p => p.1 == name)).map Prod.snd

/-- The row filter `df[df["speaker"]==speaker]`. -/
def speakerRows (speaker : String) (df : List (SpRow α)) : List (SpRow α) :=
  df.filter (fun r => r.speaker == speaker)

/-- The `for i in range(1,N)` loop of `get_quotes` (functions.py lines
75-79), threading the accumulated DataFrame `df_all`.  A read failure is
modelled as an `Except.error` (an uncaught Python exception: no partial
result escapes). -/
def get_quotes_loop (dir : DataDir α) (speaker : String) :
    List String → List (SpRow α) → Except String (List (SpRow α))
  | [], df_all => .ok df_all
  | name :: rest, df_all =>
    match read_csv dir name with
    | none => .error ("FileNotFoundError: " ++ name)
    | some current_df => get_quotes_loop dir speaker rest (df_all ++ speakerRows speaker current_df)

/-- `get_quotes` (functions.py lines 60-85): list the year's chunk files,
load the first (`file_arr[0]` — an uncaught `IndexError` when the listing is
empty, modelled as `Except.error`), filter it to the speaker's rows, then
fold the remaining chunk files in listing order, concatenating each one's
speaker rows. -/
def get_quotes (dir : DataDir α) (speaker : String) (year : Nat) :
    Except String (List (SpRow α)) :=
  let filenames := find_csv_filenames (listNames dir) year
  match filenames with
  | [] => .error "IndexError: index 0 is out of bounds for axis 0 with size 0"
  | f0 :: rest =>
    match read_csv dir f0 with
    | none => .error ("FileNotFoundError: " ++ f0)
    | some df1 => get_quotes_loop dir speaker rest (speakerRows speaker df1)

/-! ### Chunker (`chunkify`) -/

/-- Content of a file written by `chunkify`: a plain CSV serialization of
rows, or its bz2 compression (decompressing recovers the same rows). -/
inductive FileContent (Row : Type) where
  | csv (rows : List Row)
  | bz2 (rows : List Row)
deriving DecidableEq

/-- The rows a file content serializes. -/
def contentRows : FileContent Row → List Row
  | .csv rows => rows
  | .bz2 rows => rows

/-- `bz2.compress` of a file's bytes: the content, now bz2-compressed. -/
def compressContent : FileContent Row → FileContent Row
  | .csv rows => .bz2 rows
  | .bz2 rows => .bz2 rows

/-- The file system: an association list from path to content, newest entry
first. -/
structure FS (Row : Type) where
  files : List (String × FileContent Row)
deriving DecidableEq

/-- Writing a file (overwrite semantics). -/
def FS.write (fs : FS Row) (name : String) (c : FileContent Row) : FS Row :=
  ⟨(name, c) :: fs.files.filter (fun p => p.1 != name)⟩

/-- Reading a file's content; `none` models the I/O error on a missing
file. -/
def FS.read (fs : FS Row) (name : String) : Option (FileContent Row) :=
  (fs.files.find? (fun p => p.1 == name)).map Prod.snd

/-- `os.remove`. -/
def FS.remove (fs : FS Row) (name : String) : FS Row :=
  ⟨fs.files.filter (fun p => p.1 != name)⟩

/-- The intermediate uncompressed output path
`'Data/' + outputname + '-' + str(batch_no) + '.csv'`. -/
def csvName (outputname : String) (batch_no : Nat) : String :=
  "Data/" ++ outputname ++ "-" ++ toString batch_no ++ ".csv"

/-- The compressed destination path, `output + '.bz2'`. -/
def bz2Name (outputname : String) (batch_no : Nat) : String :=
  csvName outputname batch_no ++ ".bz2"

/-- The chunks `pd.read_json(filepath, chunksize=chunk_size, lines=True)`
yields: successive batches of `chunk_size` rows, the last one possibly
shorter; nothing for an empty source (pandas rejects `chunksize = 0` before
reading, modelled as no chunks). -/
def chunkList (chunk_size : Nat) : List α → List (List α)
  | [] => []
  | a :: l =>
    if chunk_size = 0 then []
    else (a :: l).take chunk_size :: chunkList chunk_size ((a :: l).drop chunk_size)
termination_by l => l.length
decreasing_by
  rename_i h
  rw [List.length_drop]
  simp only [List.length_cons]
  omega

/-- The body of `chunkify`'s `for chunk in pd.read_json(...)` loop
(functions.py lines 22-51): write the chunk as `output = csvName`, read those
bytes back and write their bz2 compression to `output + '.bz2'`, then
`os.remove(output)`.  An unreadable just-written file would be an uncaught
exception; it cannot happen, and is modelled by returning the file system as
is. -/
def chunkifyAux (outputname : String) :
    List (List Row) → Nat → FS Row → FS Row
  | [], _, fs => fs
  | chunk :: rest, batch_no, fs =>
    let output := csvName outputname batch_no
    let fs1 := fs.write output (.csv chunk)
    match fs1.read output with
    | none => fs1
    | some data =>
      let fs2 := fs1.write (output ++ ".bz2") (compressContent data)
      let fs3 := fs2.remove output
      chunkifyAux outputname rest (batch_no + 1) fs3

/-- `chunkify` (functions.py lines 11-51): the source file's rows are
`rows`; `batch_no` starts at 1. -/
def chunkify (fs : FS Row) (rows : List Row) (chunk_size : Nat) (outputname : String) :
    FS Row :=
  chunkifyAux outputname (chunkList chunk_size rows) 1 fs

/-- The list of bz2 chunk files `chunkify` creates, first batch first,
numbering from `batch_no`. -/
def mkBz2Files (outputname : String) (batch_no : Nat) :
    List (List Row) → List (String × FileContent Row)
  | [] => []
  | chunk :: rest =>
    (bz2Name outputname batch_no, .bz2 chunk) :: mkBz2Files outputname (batch_no + 1) rest

/-! ### Decimal rendering of batch numbers is injective

Needed to know that distinct batches produce distinct file names.  `toString`
on `Nat` is `Nat.repr`, built from `Nat.toDigitsCore`; we relate it to a
structurally recursive digit function and read the number back from its
digits. -/

/-- Structural version of `Nat.toDigits 10`. -/
def natDigits (n : Nat) : List Char :=
  if n < 10 then [Nat.digitChar n]
  else natDigits (n / 10) ++ [Nat.digitChar (n % 10)]
termination_by n
decreasing_by
  rename_i h
  rw [not_lt] at h
  exact Nat.div_lt_self (by omega) (by omega)

theorem digitChar_toNat_sub (m : Nat) (h : m < 10) : (Nat.digitChar m).toNat - 48 = m := by
  interval_cases m <;> rfl

theorem toDigitsCore_eq_natDigits :
    ∀ (fuel n : Nat) (ds : List Char), n < fuel →
      Nat.toDigitsCore 10 fuel n ds = natDigits n ++ ds := by
  intro fuel
  induction fuel with
  | zero => intro n ds h; omega
  | succ fuel ih =>
    intro n ds h
    rw [Nat.toDigitsCore]
    by_cases h10 : n < 10
    · have hdiv : n / 10 = 0 := Nat.div_eq_of_lt h10
      rw [natDigits]
      simp [hdiv, Nat.mod_eq_of_lt h10, h10]
    · have hdiv : n / 10 ≠ 0 := by
        rw [not_lt] at h10
        have : 1 ≤ n / 10 := (Nat.le_div_iff_mul_le (by omega)).mpr (by omega)
        omega
      rw [if_neg hdiv]
      rw [ih (n / 10) _ (by
        have : n / 10 < n := Nat.div_lt_self (by omega) (by omega)
        omega)]
      conv_rhs => rw [natDigits]
      rw [if_neg h10]
      rw [List.append_assoc]
      rfl

/-- Reading the digits back. -/
theorem foldl_natDigits (n : Nat) :
    (natDigits n).foldl (fun a c => 10 * a + digitVal c) 0 = n := by
  induction n using Nat.strong_induction_on with
  | _ n ih =>
    rw [natDigits]
    by_cases h10 : n < 10
    · simp only [h10, if_true, List.foldl_cons, List.foldl_nil]
      simp [digitVal, digitChar_toNat_sub n h10]
    · simp only [h10, if_false]
      rw [List.foldl_append]
      rw [ih (n / 10) (Nat.div_lt_self (by omega) (by omega))]
      simp only [List.foldl_cons, List.foldl_nil]
      have hm : n % 10 < 10 := Nat.mod_lt _ (by omega)
      simp [digitVal, digitChar_toNat_sub _ hm]
      omega

theorem natDigits_injective : Function.Injective natDigits := by
  intro m n h
  have := foldl_natDigits m
  rw [h, foldl_natDigits] at this
  omega

theorem natToString_injective (m n : Nat) (h : toString m = toString n) : m = n := by
  have hdata : (toString m).data = (toString n).data := by rw [h]
  have hm : (toString m).data = Nat.toDigits 10 m := rfl
  have hn : (toString n).data = Nat.toDigits 10 n := rfl
  rw [hm, hn] at hdata
  unfold Nat.toDigits at hdata
  rw [toDigitsCore_eq_natDigits (m + 1) m [] (by omega),
      toDigitsCore_eq_natDigits (n + 1) n [] (by omega)] at hdata
  simp only [List.append_nil] at hdata
  exact natDigits_injective hdata

/-! ### File names: csv vs bz2, and distinct batches -/

theorem string_data_ext (s t : String) (h : s.data = t.data) : s = t := by
  cases s
  cases t
  exact congrArg String.mk h

theorem getLast_append_tail (s t : String) (c : Char) (m : List Char)
    (h : t.data = c :: m) : (s ++ t).data.getLast? = (c :: m).getLast? := by
  rw [String.data_append, h, List.getLast?_append_cons]

theorem csvName_data_getLast (outputname : String) (i : Nat) :
    (csvName outputname i).data.getLast? = some 'v' := by
  rw [csvName]
  rw [getLast_append_tail _ ".csv" '.' ['c', 's', 'v'] rfl]
  rfl

theorem bz2Name_data_getLast (outputname : String) (i : Nat) :
    (bz2Name outputname i).data.getLast? = some '2' := by
  rw [bz2Name]
  rw [getLast_append_tail _ ".bz2" '.' ['b', 'z', '2'] rfl]
  rfl

theorem csvName_ne_bz2Name (o1 o2 : String) (i j : Nat) :
    csvName o1 i ≠ bz2Name o2 j := by
  intro h
  have : (csvName o1 i).data.getLast? = (bz2Name o2 j).data.getLast? := by rw [h]
  rw [csvName_data_getLast, bz2Name_data_getLast] at this
  simp at this

theorem bz2Name_inj (outputname : String) (i j : Nat)
    (h : bz2Name outputname i = bz2Name outputname j) : i = j := by
  have hdata : (bz2Name outputname i).data = (bz2Name outputname j).data := by rw [h]
  have hshape : ∀ k : Nat, (bz2Name outputname k).data
      = ("Data/" ++ outputname ++ "-").data ++ ((toString k).data ++ (".csv.bz2" : String).data) := by
    intro k
    simp [bz2Name, csvName, String.data_append, List.append_assoc]
  rw [hshape i, hshape j] at hdata
  have h2 := List.append_cancel_left hdata
  have h3 := List.append_cancel_right h2
  exact natToString_injective i j (string_data_ext _ _ h3)

/-! ### Behaviour of the chunkify loop on the file system -/

theorem filter_ne_of_all_ne {Row : Type} (fs : List (String × FileContent Row))
    (name : String) (h : ∀ p ∈ fs, p.1 ≠ name) :
    fs.filter (fun p => p.1 != name) = fs := by
  apply List.filter_eq_self.mpr
  intro p hp
  simpa [bne_iff_ne] using h p hp

theorem read_write_self {Row : Type} (fs : FS Row) (name : String) (c : FileContent Row) :
    (fs.write name c).read name = some c := by
  simp [FS.write, FS.read, List.find?]

theorem fs_eq_of_files_eq {Row : Type} (a b : FS Row) (h : a.files = b.files) : a = b := by
  cases a
  cases b
  exact congrArg FS.mk h

theorem chunkifyAux_files (outputname : String) :
    ∀ (chunks : List (List Row)) (b : Nat) (fs : List (String × FileContent Row)),
      (∀ p ∈ fs, ∀ k, b ≤ k →
        p.1 ≠ csvName outputname k ∧ p.1 ≠ bz2Name outputname k) →
      (chunkifyAux outputname chunks b ⟨fs⟩).files
        = (mkBz2Files outputname b chunks).reverse ++ fs := by
  intro chunks
  induction chunks with
  | nil =>
    intro b fs _
    rfl
  | cons chunk rest ih =>
    intro b fs hfs
    have hcsv : fs.filter (fun p => p.1 != csvName outputname b) = fs :=
      filter_ne_of_all_ne fs _ (fun p hp => (hfs p hp b le_rfl).1)
    have hread : (FS.write ⟨fs⟩ (csvName outputname b) (.csv chunk)).read
        (csvName outputname b) = some (.csv chunk) := read_write_self _ _ _
    rw [chunkifyAux]
    rw [hread]
    have hstep :
        (((FS.write ⟨fs⟩ (csvName outputname b) (.csv chunk)).write
            (csvName outputname b ++ ".bz2")
            (compressContent (.csv chunk))).remove (csvName outputname b)).files
          = (bz2Name outputname b, FileContent.bz2 chunk) :: fs := by
      simp only [FS.write, FS.remove, compressContent]
      rw [hcsv]
      have h1 : ((csvName outputname b, FileContent.csv chunk) :: fs).filter
          (fun p => p.1 != csvName outputname b ++ ".bz2") =
          (csvName outputname b, FileContent.csv chunk) :: fs := by
        apply filter_ne_of_all_ne
        intro p hp
        rcases List.mem_cons.mp hp with h | h
        · rw [h]
          exact csvName_ne_bz2Name outputname outputname b b
        · exact (hfs p h b le_rfl).2
      rw [h1]
      simp only [List.filter_cons]
      have h2 : ((csvName outputname b ++ ".bz2" : String) != csvName outputname b) = true := by
        simp only [bne_iff_ne, ne_eq]
        intro hcontra
        exact csvName_ne_bz2Name outputname outputname b b hcontra.symm
      rw [if_pos h2]
      have h3 : ((csvName outputname b : String) != csvName outputname b) = false := by
        simp
      rw [h3]
      simp only [Bool.false_eq_true, if_false]
      rw [hcsv]
      rfl
    have hgoal := ih (b + 1) ((bz2Name outputname b, FileContent.bz2 chunk) :: fs) (by
      intro p hp k hk
      rcases List.mem_cons.mp hp with h | h
      · rw [h]
        constructor
        · intro hcontra
          exact csvName_ne_bz2Name outputname outputname k b hcontra.symm
        · intro hcontra
          have := bz2Name_inj outputname b k hcontra
          omega
      · exact hfs p h k (by omega))
    have hfs3 : (((FS.write ⟨fs⟩ (csvName outputname b) (.csv chunk)).write
            (csvName outputname b ++ ".bz2")
            (compressContent (.csv chunk))).remove (csvName outputname b))
          = (⟨(bz2Name outputname b, FileContent.bz2 chunk) :: fs⟩ : FS Row) :=
      fs_eq_of_files_eq _ _ hstep
    show (chunkifyAux outputname rest (b + 1)
        (((FS.write ⟨fs⟩ (csvName outputname b) (.csv chunk)).write
            (csvName outputname b ++ ".bz2")
            (compressContent (.csv chunk))).remove (csvName outputname b))).files
      = (mkBz2Files outputname b (chunk :: rest)).reverse ++ fs
    rw [hfs3, hgoal]
    rw [mkBz2Files]
    simp [List.append_assoc]

/-! ### Chunk arithmetic -/

theorem chunkList_flatten (C : Nat) (hC : 0 < C) :
    ∀ (l : List α), (chunkList C l).flatten = l := by
  have key : ∀ (n : Nat) (l : List α), l.length ≤ n → (chunkList C l).flatten = l := by
    intro n
    induction n with
    | zero =>
      intro l hl
      cases l with
      | nil => simp [chunkList]
      | cons a l => simp at hl
    | succ n ih =>
      intro l hl
      cases l with
      | nil => simp [chunkList]
      | cons a l =>
        rw [chunkList]
        rw [if_neg (by omega)]
        rw [List.flatten_cons]
        rw [ih ((a :: l).drop C) (by
          rw [List.length_drop]
          simp only [List.length_cons] at hl ⊢
          omega)]
        exact List.take_append_drop C (a :: l)
  intro l
  exact key l.length l le_rfl

theorem chunkList_length (C : Nat) (hC : 0 < C) :
    ∀ (l : List α), (chunkList C l).length = (l.length + C - 1) / C := by
  have key : ∀ (n : Nat) (l : List α), l.length ≤ n →
      (chunkList C l).length = (l.length + C - 1) / C := by
    intro n
    induction n with
    | zero =>
      intro l hl
      cases l with
      | nil =>
        rw [show chunkList C ([] : List α) = [] from by simp [chunkList]]
        simp only [List.length_nil, Nat.zero_add]
        rw [Nat.div_eq_of_lt (by omega)]
      | cons a l => simp at hl
    | succ n ih =>
      intro l hl
      cases l with
      | nil =>
        rw [show chunkList C ([] : List α) = [] from by simp [chunkList]]
        simp only [List.length_nil, Nat.zero_add]
        rw [Nat.div_eq_of_lt (by omega)]
      | cons a l =>
        rw [chunkList]
        rw [if_neg (by omega)]
        rw [List.length_cons]
        rw [ih ((a :: l).drop C) (by
          rw [List.length_drop]
          simp only [List.length_cons] at hl ⊢
          omega)]
        rw [List.length_drop]
        simp only [List.length_cons]
        by_cases hle : l.length + 1 ≤ C
        · have h0 : l.length + 1 - C = 0 := by omega
          rw [h0, Nat.zero_add]
          rw [Nat.div_eq_of_lt (by omega)]
          exact (Nat.div_eq_of_lt_le (by omega) (by omega)).symm
        · have h1 : l.length + 1 - C + C - 1 = l.length := by omega
          have h2 : l.length + 1 + C - 1 = l.length + C := by omega
          rw [h1, h2]
          rw [Nat.add_div_right _ hC]
  intro l
  exact key l.length l le_rfl

theorem mkBz2Files_length (outputname : String) :
    ∀ (chunks : List (List Row)) (b : Nat),
      (mkBz2Files outputname b chunks).length = chunks.length := by
  intro chunks
  induction chunks with
  | nil => intro b; rfl
  | cons c rest ih =>
    intro b
    rw [mkBz2Files, List.length_cons, List.length_cons, ih (b + 1)]

theorem mkBz2Files_map_fst (outputname : String) :
    ∀ (chunks : List (List Row)) (b : Nat),
      (mkBz2Files outputname b chunks).map Prod.fst
        = (List.range' b chunks.length).map (bz2Name outputname) := by
  intro chunks
  induction chunks with
  | nil => intro b; rfl
  | cons c rest ih =>
    intro b
    rw [mkBz2Files, List.length_cons, List.range'_succ, List.map_cons, List.map_cons, ih (b + 1)]

theorem mkBz2Files_map_rows (outputname : String) :
    ∀ (chunks : List (List Row)) (b : Nat),
      (mkBz2Files outputname b chunks).map (fun p => contentRows p.2) = chunks := by
  intro chunks
  induction chunks with
  | nil => intro b; rfl
  | cons c rest ih =>
    intro b
    rw [mkBz2Files, List.map_cons, ih (b + 1)]
    rfl

theorem mkBz2Files_mem_name (outputname : String) :
    ∀ (chunks : List (List Row)) (b : Nat) (p : String × FileContent Row),
      p ∈ mkBz2Files outputname b chunks → ∃ k, p.1 = bz2Name outputname k := by
  intro chunks
  induction chunks with
  | nil => intro b p hp; simp [mkBz2Files] at hp
  | cons c rest ih =>
    intro b p hp
    rw [mkBz2Files] at hp
    rcases List.mem_cons.mp hp with h | h
    · exact ⟨b, by rw [h]⟩
    · exact ih (b + 1) p h

/-! ### Deduplication lemmas -/

theorem mem_dropDuplicates [DecidableEq β] :
    ∀ (l : List β) (a : β), a ∈ dropDuplicates l ↔ a ∈ l := by
  have key : ∀ (n : Nat) (l : List β), l.length ≤ n →
      ∀ a, a ∈ dropDuplicates l ↔ a ∈ l := by
    intro n
    induction n with
    | zero =>
      intro l hl a
      cases l with
      | nil => simp [dropDuplicates]
      | cons x xs => simp at hl
    | succ n ih =>
      intro l hl a
      cases l with
      | nil => simp [dropDuplicates]
      | cons x xs =>
        rw [dropDuplicates]
        rw [List.mem_cons, List.mem_cons]
        rw [ih (xs.filter (fun y => decide (y ≠ x))) (by
          have := List.length_filter_le (fun y => decide (y ≠ x)) xs
          simp only [List.length_cons] at hl
          omega) a]
        rw [List.mem_filter]
        constructor
        · rintro (h | ⟨h1, _⟩)
          · left; exact h
          · right; exact h1
        · rintro (h | h)
          · left; exact h
          · by_cases hax : a = x
            · left; exact hax
            · right; exact ⟨h, by simpa using hax⟩
  intro l a
  exact key l.length l le_rfl a

theorem nodup_dropDuplicates [DecidableEq β] :
    ∀ (l : List β), (dropDuplicates l).Nodup := by
  have key : ∀ (n : Nat) (l : List β), l.length ≤ n → (dropDuplicates l).Nodup := by
    intro n
    induction n with
    | zero =>
      intro l hl
      cases l with
      | nil => simp [dropDuplicates]
      | cons x xs => simp at hl
    | succ n ih =>
      intro l hl
      cases l with
      | nil => simp [dropDuplicates]
      | cons x xs =>
        rw [dropDuplicates]
        rw [List.nodup_cons]
        constructor
        · intro hmem
          rw [mem_dropDuplicates] at hmem
          rw [List.mem_filter] at hmem
          simp at hmem
        · exact ih (xs.filter (fun y => decide (y ≠ x))) (by
            have := List.length_filter_le (fun y => decide (y ≠ x)) xs
            simp only [List.length_cons] at hl
            omega)
  intro l
  exact key l.length l le_rfl

/-! ### Reading listed files always succeeds -/

/-- Total version of `read_csv`, used to state what `get_quotes` returns. -/
def readRows (dir : DataDir α) (name : String) : List (SpRow α) :=
  ((dir.find? (fun p => p.1 == name)).map Prod.snd).getD []

theorem read_csv_of_listed (dir : DataDir α) (name : String)
    (h : name ∈ listNames dir) : read_csv dir name = some (readRows dir name) := by
  have hex : ∃ p ∈ dir, (p.1 == name) = true := by
    rw [listNames] at h
    rcases List.mem_map.mp h with ⟨p, hp, hpe⟩
    exact ⟨p, hp, by rw [hpe]; exact beq_self_eq_true name⟩
  have hsome : (dir.find? (fun p => p.1 == name)).isSome := by
    rw [List.find?_isSome]
    exact hex
  rcases Option.isSome_iff_exists.mp hsome with ⟨p, hp⟩
  rw [read_csv, readRows, hp]
  rfl

theorem get_quotes_loop_ok (dir : DataDir α) (speaker : String) :
    ∀ (names : List String) (acc : List (SpRow α)),
      (∀ n ∈ names, n ∈ listNames dir) →
      get_quotes_loop dir speaker names acc
        = .ok (acc ++ (names.map (fun f => speakerRows speaker (readRows dir f))).flatten) := by
  intro names
  induction names with
  | nil =>
    intro acc _
    simp [get_quotes_loop]
  | cons f rest ih =>
    intro acc h
    rw [get_quotes_loop]
    rw [read_csv_of_listed dir f (h f (List.mem_cons_self f rest))]
    show get_quotes_loop dir speaker rest (acc ++ speakerRows speaker (readRows dir f))
      = Except.ok (acc ++ (List.map (fun f => speakerRows speaker (readRows dir f)) (f :: rest)).flatten)
    rw [ih (acc ++ speakerRows speaker (readRows dir f))
        (fun n hn => h n (List.mem_cons_of_mem f hn))]
    rw [List.map_cons, List.flatten_cons, List.append_assoc]

/-! ## Claim theorems -/

/-- The five-score example table of the spec (§8): sentiments
-0.05, 0.05, 0.0, -0.2, 0.2. -/
def exampleScores : List (SRow Unit) :=
  [⟨(), -0.05⟩, ⟨(), 0.05⟩, ⟨(), 0⟩, ⟨(), -0.2⟩, ⟨(), 0.2⟩]

/-- C1 (counterexample): the claim quantifies over all thresholds with
`neg_treshhold ≤ pos_treshhold` and asserts that a score `≥ pos_treshhold`
gets category `1`.  With `neg_treshhold = pos_treshhold = 0` and score `0`
(which satisfies `0 ≤ 0` and `0 ≥ 0`), the code's negative branch fires
first and the category is `-1`, not `1`. -/
theorem add_sentiment_category_boundary_cex :
    ((0 : ℚ) ≤ (0 : ℚ)) ∧ ((0 : ℚ) ≥ (0 : ℚ)) ∧
    ((add_sentiment_category [(⟨(), 0⟩ : SRow Unit)] 0 0).2.map
      (fun r => r.sentiment_category)) = [-1] ∧ ((-1 : Int) ≠ 1) := by
  refine ⟨le_refl 0, le_refl 0, ?_, by decide⟩
  simp [add_sentiment_category, categorize]

/-- C1 (amended): for `neg_treshhold ≤ pos_treshhold`, every output row's
`sentiment_category` is `-1` when its score is `≤ neg_treshhold`, `1` when
its score is `≥ pos_treshhold` and `> neg_treshhold` (the negative branch is
checked first, which only matters when the thresholds coincide), and `0`
strictly between the thresholds; with thresholds -0.05 and 0.05 the scores
-0.05, 0.05, 0.0, -0.2, 0.2 map to -1, 1, 0, -1, 1. -/
theorem add_sentiment_category_spec (α : Type) (df : List (SRow α))
    (neg_treshhold pos_treshhold : ℚ) (h : neg_treshhold ≤ pos_treshhold) :
    (∀ r ∈ (add_sentiment_category df neg_treshhold pos_treshhold).2,
      (r.sentiment ≤ neg_treshhold → r.sentiment_category = -1) ∧
      (pos_treshhold ≤ r.sentiment → neg_treshhold < r.sentiment → r.sentiment_category = 1) ∧
      (neg_treshhold < r.sentiment → r.sentiment < pos_treshhold → r.sentiment_category = 0)) ∧
    ((add_sentiment_category exampleScores (-0.05) 0.05).2.map
      (fun r => r.sentiment_category)) = [-1, 1, 0, -1, 1] := by
  constructor
  · intro r hr
    rcases List.mem_map.mp hr with ⟨x, _, hxe⟩
    rw [← hxe]
    refine ⟨?_, ?_, ?_⟩
    · intro hle
      simp only [categorize]
      rw [if_pos hle]
    · intro hge hgt
      simp only [categorize]
      rw [if_neg (not_le.mpr hgt), if_pos hge]
    · intro h1 h2
      simp only [categorize]
      rw [if_neg (not_le.mpr h1), if_neg (not_le.mpr h2)]
  · norm_num [add_sentiment_category, exampleScores, categorize]

/-- C1 (witness): the amended theorem applied at the example table with
thresholds -0.05 and 0.05. -/
theorem add_sentiment_category_spec_witness :
    ((-0.05 : ℚ) ≤ 0.05) ∧
    ((∀ r ∈ (add_sentiment_category exampleScores (-0.05) 0.05).2,
      (r.sentiment ≤ -0.05 → r.sentiment_category = -1) ∧
      ((0.05 : ℚ) ≤ r.sentiment → (-0.05 : ℚ) < r.sentiment → r.sentiment_category = 1) ∧
      ((-0.05 : ℚ) < r.sentiment → r.sentiment < 0.05 → r.sentiment_category = 0)) ∧
    ((add_sentiment_category exampleScores (-0.05) 0.05).2.map
      (fun r => r.sentiment_category)) = [-1, 1, 0, -1, 1]) :=
  ⟨by norm_num, add_sentiment_category_spec Unit exampleScores (-0.05) 0.05 (by norm_num)⟩

/-- C10: over every threshold pair (including `neg_treshhold >
pos_treshhold`) and every score, the categorization is total: each output
row's `sentiment_category` is exactly one of -1, 0, 1; and when a score
satisfies both `score ≤ neg_treshhold` and `score ≥ pos_treshhold`, the
negative branch takes precedence and the category is -1. -/
theorem add_sentiment_category_total (α : Type) (df : List (SRow α))
    (neg_treshhold pos_treshhold : ℚ) :
    ∀ r ∈ (add_sentiment_category df neg_treshhold pos_treshhold).2,
      (r.sentiment_category = -1 ∨ r.sentiment_category = 0 ∨ r.sentiment_category = 1) ∧
      (r.sentiment ≤ neg_treshhold → pos_treshhold ≤ r.sentiment →
        r.sentiment_category = -1) := by
  intro r hr
  rcases List.mem_map.mp hr with ⟨x, _, hxe⟩
  rw [← hxe]
  constructor
  · simp only [categorize]
    split_ifs with h1 h2
    · left; rfl
    · right; right; rfl
    · right; left; rfl
  · intro hle _
    simp only [categorize]
    rw [if_pos hle]

/-- C10 (witness): thresholds `pos = neg = 0` and score `0` satisfy both
comparisons and the category is -1. -/
theorem add_sentiment_category_total_witness :
    (((⟨(), 0, categorize 0 0 0⟩ : SCRow Unit).sentiment_category = -1 ∨
      (⟨(), 0, categorize 0 0 0⟩ : SCRow Unit).sentiment_category = 0 ∨
      (⟨(), 0, categorize 0 0 0⟩ : SCRow Unit).sentiment_category = 1) ∧
     ((⟨(), 0, categorize 0 0 0⟩ : SCRow Unit).sentiment ≤ 0 →
      (0 : ℚ) ≤ (⟨(), 0, categorize 0 0 0⟩ : SCRow Unit).sentiment →
      (⟨(), 0, categorize 0 0 0⟩ : SCRow Unit).sentiment_category = -1)) :=
  add_sentiment_category_total Unit [⟨(), 0⟩] 0 0 ⟨(), 0, categorize 0 0 0⟩
    (List.mem_map.mpr ⟨⟨(), 0⟩, List.mem_cons_self _ _, rfl⟩)

/-- C7: `add_polarity_score_to_df` and `add_sentiment_category` copy the
DataFrame: the caller's table is unchanged by the call, and stripping the
added column (`sentiment`, resp. `sentiment_category`) from the returned
table gives back exactly the input rows, in order. -/
theorem copy_semantics (α : Type) (sid : String → ℚ) (df : List (QRow α))
    (df2 : List (SRow α)) (neg_treshhold pos_treshhold : ℚ) :
    (add_polarity_score_to_df sid df).1 = df ∧
    ((add_polarity_score_to_df sid df).2.map
      (fun r => (⟨r.rest, r.quotation⟩ : QRow α))) = df ∧
    (add_sentiment_category df2 neg_treshhold pos_treshhold).1 = df2 ∧
    ((add_sentiment_category df2 neg_treshhold pos_treshhold).2.map
      (fun r => (⟨r.rest, r.sentiment⟩ : SRow α))) = df2 := by
  refine ⟨rfl, ?_, rfl, ?_⟩
  · show (df.map _).map _ = df
    rw [List.map_map]
    exact List.map_id df
  · show (df2.map _).map _ = df2
    rw [List.map_map]
    exact List.map_id df2

/-- C5: `find_csv_filenames` returns exactly (same order, same multiplicity)
the listed names that start with `"quotes-<year>-"`; membership is
equivalent to being a listed name of the form `"quotes-<year>-" ++ t`; and
on the spec's example listing for year 2020 only `"quotes-2020-1"` is
returned. -/
theorem find_csv_filenames_spec (filenames : List String) (year : Nat) :
    (find_csv_filenames filenames year
      = filenames.filter (fun f => pyStartsWith f ("quotes-" ++ toString year ++ "-"))) ∧
    (∀ f, f ∈ find_csv_filenames filenames year ↔
      f ∈ filenames ∧ ∃ t : String, f = ("quotes-" ++ toString year ++ "-") ++ t) ∧
    (find_csv_filenames ["quotes-2020-1", "quotes-2021-1", "other-2020-1"] 2020
      = ["quotes-2020-1"]) := by
  refine ⟨rfl, ?_, by decide⟩
  intro f
  rw [find_csv_filenames, List.mem_filter]
  constructor
  · rintro ⟨hmem, hpre⟩
    refine ⟨hmem, ?_⟩
    rw [pyStartsWith] at hpre
    rcases List.isPrefixOf_iff_prefix.mp hpre with ⟨t, ht⟩
    refine ⟨⟨t⟩, ?_⟩
    apply string_data_ext
    rw [String.data_append]
    exact ht.symm
  · rintro ⟨hmem, t, hte⟩
    refine ⟨hmem, ?_⟩
    rw [pyStartsWith]
    apply List.isPrefixOf_iff_prefix.mpr
    exact ⟨t.data, by simp [hte, String.data_append]⟩

/-- C4: when at least one chunk file exists for the year, `get_quotes`
returns (with no error) the concatenation, in directory-listing order, of
each listed chunk file's rows whose `speaker` equals the given name by exact
string comparison; and every returned row's speaker is the given name. -/
theorem get_quotes_spec (α : Type) (dir : DataDir α) (speaker : String) (year : Nat)
    (h : find_csv_filenames (listNames dir) year ≠ []) :
    get_quotes dir speaker year
      = .ok (((find_csv_filenames (listNames dir) year).map
          (fun f => speakerRows speaker (readRows dir f))).flatten) ∧
    ∀ r ∈ ((find_csv_filenames (listNames dir) year).map
          (fun f => speakerRows speaker (readRows dir f))).flatten,
      r.speaker = speaker := by
  have hlisted : ∀ f ∈ find_csv_filenames (listNames dir) year, f ∈ listNames dir := by
    intro f hf
    rw [find_csv_filenames, List.mem_filter] at hf
    exact hf.1
  constructor
  · rw [get_quotes]
    cases hfn : find_csv_filenames (listNames dir) year with
    | nil => exact absurd hfn h
    | cons f0 rest =>
      show (match read_csv dir f0 with
        | none => Except.error ("FileNotFoundError: " ++ f0)
        | some df1 => get_quotes_loop dir speaker rest (speakerRows speaker df1))
        = Except.ok (((f0 :: rest).map (fun f => speakerRows speaker (readRows dir f))).flatten)
      rw [read_csv_of_listed dir f0 (hlisted f0 (by rw [hfn]; exact List.mem_cons_self f0 rest))]
      show get_quotes_loop dir speaker rest (speakerRows speaker (readRows dir f0))
        = Except.ok (((f0 :: rest).map (fun f => speakerRows speaker (readRows dir f))).flatten)
      rw [get_quotes_loop_ok dir speaker rest (speakerRows speaker (readRows dir f0))
        (fun n hn => hlisted n (by rw [hfn]; exact List.mem_cons_of_mem f0 hn))]
      rw [List.map_cons, List.flatten_cons]
  · intro r hr
    rcases List.mem_flatten.mp hr with ⟨l, hl, hrl⟩
    rcases List.mem_map.mp hl with ⟨f, _, hfe⟩
    rw [← hfe] at hrl
    rw [speakerRows, List.mem_filter] at hrl
    exact eq_of_beq hrl.2

/-- C4 (witness): a two-file directory for year 2020 in which only the first
file has rows of speaker "A"; extraction returns exactly those rows. -/
theorem get_quotes_spec_witness :
    (find_csv_filenames (listNames
      ([("quotes-2020-1", [⟨1, "A"⟩, ⟨2, "B"⟩, ⟨3, "A"⟩]),
        ("quotes-2020-2", [⟨4, "B"⟩])] : DataDir Nat)) 2020 ≠ []) ∧
    (get_quotes ([("quotes-2020-1", [⟨1, "A"⟩, ⟨2, "B"⟩, ⟨3, "A"⟩]),
        ("quotes-2020-2", [⟨4, "B"⟩])] : DataDir Nat) "A" 2020
      = .ok (((find_csv_filenames (listNames
          ([("quotes-2020-1", [⟨1, "A"⟩, ⟨2, "B"⟩, ⟨3, "A"⟩]),
            ("quotes-2020-2", [⟨4, "B"⟩])] : DataDir Nat)) 2020).map
          (fun f => speakerRows "A" (readRows
            ([("quotes-2020-1", [⟨1, "A"⟩, ⟨2, "B"⟩, ⟨3, "A"⟩]),
              ("quotes-2020-2", [⟨4, "B"⟩])] : DataDir Nat) f))).flatten)) ∧
    ((((find_csv_filenames (listNames
          ([("quotes-2020-1", [⟨1, "A"⟩, ⟨2, "B"⟩, ⟨3, "A"⟩]),
            ("quotes-2020-2", [⟨4, "B"⟩])] : DataDir Nat)) 2020).map
          (fun f => speakerRows "A" (readRows
            ([("quotes-2020-1", [⟨1, "A"⟩, ⟨2, "B"⟩, ⟨3, "A"⟩]),
              ("quotes-2020-2", [⟨4, "B"⟩])] : DataDir Nat) f))).flatten)
      = [⟨1, "A"⟩, ⟨3, "A"⟩]) := by
  refine ⟨by decide, ?_, by decide⟩
  exact (get_quotes_spec Nat _ "A" 2020 (by decide)).1

/-- C8: when the directory scan finds no chunk file for the year,
`get_quotes` fails with the uncaught `IndexError` raised by `file_arr[0]`
and returns no (partial) result. -/
theorem get_quotes_empty_year (α : Type) (dir : DataDir α) (speaker : String) (year : Nat)
    (h : find_csv_filenames (listNames dir) year = []) :
    get_quotes dir speaker year
      = .error "IndexError: index 0 is out of bounds for axis 0 with size 0" := by
  rw [get_quotes]
  rw [h]

/-- C8 (witness): a directory holding only a 2021 chunk file has no 2020
chunk files, and extraction for 2020 raises the index error. -/
theorem get_quotes_empty_year_witness :
    (find_csv_filenames (listNames ([("quotes-2021-1", [⟨1, "A"⟩])] : DataDir Nat)) 2020
      = []) ∧
    (get_quotes ([("quotes-2021-1", [⟨1, "A"⟩])] : DataDir Nat) "A" 2020
      = .error "IndexError: index 0 is out of bounds for axis 0 with size 0") :=
  ⟨by decide, get_quotes_empty_year Nat _ "A" 2020 (by decide)⟩

/-- The composed per-row test of `high_probability_quotes`, phrased on the
source rows: extract the first decimal number of `probas`; a missing value
fails the `≥ cutoff` test. -/
theorem probasGe_extendP (α : Type) (cutoff : ℚ) :
    (probasGe cutoff ∘ (extendP : PRow α → PERow α))
      = fun r => ((extractFirstDecimal r.probas).map
          (fun v => decide (cutoff ≤ v))).getD false := by
  funext r
  cases h : extractFirstDecimal r.probas <;>
    simp [Function.comp, probasGe, extendP, h]

/-- C2: `high_probability_quotes` returns exactly the rows (in order, with
the `probasE` column added) whose extracted first decimal number is `≥
cutoff`; a row whose `probas` has no parseable number is never in the
result, whatever the cutoff; on the spec's examples with cutoff 0.8 the
0.85-row is kept and the 0.5-row dropped, and an unparseable row is dropped
for every cutoff. -/
theorem high_probability_quotes_spec (α : Type) (df : List (PRow α)) (cutoff : ℚ) :
    ((high_probability_quotes df cutoff).2
      = (df.filter (fun r => ((extractFirstDecimal r.probas).map
          (fun v => decide (cutoff ≤ v))).getD false)).map extendP) ∧
    (∀ r ∈ df, extractFirstDecimal r.probas = none →
      extendP r ∉ (high_probability_quotes df cutoff).2) ∧
    (extractFirstDecimal "[('A', 0.85)]" = some 0.85) ∧
    (extractFirstDecimal "[('B', 0.5)]" = some 0.5) ∧
    ((high_probability_quotes
        [(⟨(), "[('A', 0.85)]"⟩ : PRow Unit), ⟨(), "[('B', 0.5)]"⟩] 0.8).2.map
      (fun r => r.probas) = ["[('A', 0.85)]"]) ∧
    (∀ c : ℚ, (high_probability_quotes [(⟨(), "abc"⟩ : PRow Unit)] c).2 = []) := by
  have h085 : extractFirstDecimal "[('A', 0.85)]" = some 0.85 := by
    have h1 : findDecimalMatch "[('A', 0.85)]".data = some ('0', ['8', '5']) := by decide
    rw [extractFirstDecimal, h1, Option.map_some']
    have h2 : digitVal '0' = 0 := rfl
    have h3 : natOfDigits ['8', '5'] = 85 := rfl
    rw [ratOfMatch, h2, h3]
    norm_num
  have h05 : extractFirstDecimal "[('B', 0.5)]" = some 0.5 := by
    have h1 : findDecimalMatch "[('B', 0.5)]".data = some ('0', ['5']) := by decide
    rw [extractFirstDecimal, h1, Option.map_some']
    have h2 : digitVal '0' = 0 := rfl
    have h3 : natOfDigits ['5'] = 5 := rfl
    rw [ratOfMatch, h2, h3]
    norm_num
  have habc : extractFirstDecimal "abc" = none := by decide
  refine ⟨?_, ?_, h085, h05, ?_, ?_⟩
  · show (df.map extendP).filter (probasGe cutoff) = _
    rw [List.filter_map, probasGe_extendP]
  · intro r _ hnone hmem
    have : probasGe cutoff (extendP r) = true :=
      (List.mem_filter.mp hmem).2
    rw [probasGe, extendP] at this
    simp only [hnone] at this
    exact Bool.false_ne_true this
  · have hb1 : decide ((0.8 : ℚ) ≤ 0.85) = true := by
      rw [decide_eq_true_eq]
      norm_num
    have hb2 : decide ((0.8 : ℚ) ≤ 0.5) = false := by
      rw [decide_eq_false_iff_not]
      norm_num
    simp [high_probability_quotes, extendP, probasGe, h085, h05, hb1, hb2]
  · intro c
    simp [high_probability_quotes, extendP, probasGe, habc]

/-- C9: `high_probability_quotes` adds the `probasE` column to the caller's
DataFrame in place (no copy): after the call the caller's table is the input
with `probasE` added (extracted from `probas`, original columns intact), and
the returned filtered table is a sublist of it, so its rows also carry
`probasE`. -/
theorem high_probability_quotes_mutates (α : Type) (df : List (PRow α)) (cutoff : ℚ) :
    ((high_probability_quotes df cutoff).1 = df.map extendP) ∧
    ((high_probability_quotes df cutoff).1.map
      (fun r => (⟨r.rest, r.probas⟩ : PRow α)) = df) ∧
    (∀ r ∈ (high_probability_quotes df cutoff).1,
      r.probasE = extractFirstDecimal r.probas) ∧
    ((high_probability_quotes df cutoff).2.Sublist (high_probability_quotes df cutoff).1) ∧
    (∀ r ∈ (high_probability_quotes df cutoff).2,
      r.probasE = extractFirstDecimal r.probas) := by
  have hmem : ∀ r ∈ df.map (extendP : PRow α → PERow α),
      r.probasE = extractFirstDecimal r.probas := by
    intro r hr
    rcases List.mem_map.mp hr with ⟨x, _, hxe⟩
    rw [← hxe]
    rfl
  refine ⟨rfl, ?_, hmem, List.filter_sublist _, ?_⟩
  · show (df.map _).map _ = df
    rw [List.map_map]
    exact List.map_id df
  · intro r hr
    exact hmem r (List.mem_of_mem_filter hr)

/-- A recognizer that tags the same surface text "Tesla" twice as ORG. -/
def nlpTwice : String → List Ent := fun _ => [⟨"Tesla", "ORG"⟩, ⟨"Tesla", "ORG"⟩]

/-- A recognizer returning two distinct organizations and one non-ORG
entity. -/
def nlpTwoOrgs : String → List Ent :=
  fun _ => [⟨"Tesla", "ORG"⟩, ⟨"SpaceX", "ORG"⟩, ⟨"Elon", "PERSON"⟩]

/-- A one-quote source table. -/
def exampleQuote : QuoteRec := ⟨"2020-01-01", 1, "Tesla Tesla", "q1", "[]"⟩

/-- C6: `create_org_df` emits one row per ORG-labelled mention, carrying
over `date`, `numOccurrences`, `quotation`, `quoteID`, `probas` from the
source row, then drops exact duplicates: the output has no two identical
rows and holds exactly the mention rows; two identical ORG mentions of one
quote collapse to one row, while two distinct organizations give two
rows. -/
theorem create_org_df_spec (nlp : String → List Ent) (df : List QuoteRec) :
    ((create_org_df nlp df).Nodup) ∧
    (∀ x, x ∈ create_org_df nlp df ↔ x ∈ orgMentions nlp df) ∧
    (∀ x, x ∈ orgMentions nlp df ↔
      ∃ r ∈ df, ∃ e ∈ nlp r.quotation, e.label = "ORG" ∧ x = mkOrgRow e.text r) ∧
    (create_org_df nlpTwice [exampleQuote] = [mkOrgRow "Tesla" exampleQuote]) ∧
    (create_org_df nlpTwoOrgs [exampleQuote]
      = [mkOrgRow "Tesla" exampleQuote, mkOrgRow "SpaceX" exampleQuote]) := by
  refine ⟨nodup_dropDuplicates _, fun x => mem_dropDuplicates _ x, ?_, ?_, ?_⟩
  · intro x
    rw [orgMentions, List.mem_flatMap]
    constructor
    · rintro ⟨r, hr, hx⟩
      rcases List.mem_filterMap.mp hx with ⟨e, he, hcond⟩
      by_cases hl : e.label == "ORG"
      · rw [if_pos hl] at hcond
        exact ⟨r, hr, e, he, eq_of_beq hl, (Option.some_inj.mp hcond).symm⟩
      · rw [if_neg hl] at hcond
        exact absurd hcond (Option.noConfusion)
    · rintro ⟨r, hr, e, he, hlab, hxe⟩
      refine ⟨r, hr, List.mem_filterMap.mpr ⟨e, he, ?_⟩⟩
      rw [if_pos (by rw [hlab]; exact beq_self_eq_true "ORG"), hxe]
  · have hm : orgMentions nlpTwice [exampleQuote]
        = [mkOrgRow "Tesla" exampleQuote, mkOrgRow "Tesla" exampleQuote] := rfl
    show dropDuplicates (orgMentions nlpTwice [exampleQuote]) = _
    rw [hm]
    rw [dropDuplicates]
    have hf : ([mkOrgRow "Tesla" exampleQuote].filter
        (fun y => decide (y ≠ mkOrgRow "Tesla" exampleQuote))) = [] := by
      simp
    rw [hf]
    rw [dropDuplicates]
  · have hm : orgMentions nlpTwoOrgs [exampleQuote]
        = [mkOrgRow "Tesla" exampleQuote, mkOrgRow "SpaceX" exampleQuote] := rfl
    show dropDuplicates (orgMentions nlpTwoOrgs [exampleQuote]) = _
    rw [hm]
    rw [dropDuplicates]
    have hf : ([mkOrgRow "SpaceX" exampleQuote].filter
        (fun y => decide (y ≠ mkOrgRow "Tesla" exampleQuote)))
        = [mkOrgRow "SpaceX" exampleQuote] := by
      simp [mkOrgRow, exampleQuote]
    rw [hf]
    rw [dropDuplicates]
    have hf2 : ([] : List OrgRow).filter
        (fun y => decide (y ≠ mkOrgRow "SpaceX" exampleQuote)) = [] := rfl
    rw [hf2]
    rw [dropDuplicates]

/-- C3: starting from an empty data directory, `chunkify` with positive
chunk size `C` over a source of `R` rows leaves exactly `⌈R / C⌉ = (R + C -
1) / C` files; read in batch order (the file list is newest-first, so its
reverse) their names are `Data/<outputname>-1.csv.bz2`,
`Data/<outputname>-2.csv.bz2`, …; concatenating their rows in batch order
reproduces the source rows exactly; and no intermediate uncompressed
`Data/<outputname>-<i>.csv` file remains. -/
theorem chunkify_spec (Row : Type) (rows : List Row) (chunk_size : Nat)
    (outputname : String) (hC : 0 < chunk_size) :
    ((chunkify (⟨[]⟩ : FS Row) rows chunk_size outputname).files.length
      = (rows.length + chunk_size - 1) / chunk_size) ∧
    ((chunkify (⟨[]⟩ : FS Row) rows chunk_size outputname).files.reverse.map Prod.fst
      = (List.range' 1 ((rows.length + chunk_size - 1) / chunk_size)).map
          (bz2Name outputname)) ∧
    (((chunkify (⟨[]⟩ : FS Row) rows chunk_size outputname).files.reverse.map
        (fun p => contentRows p.2)).flatten = rows) ∧
    (∀ p ∈ (chunkify (⟨[]⟩ : FS Row) rows chunk_size outputname).files,
      ∀ i : Nat, p.1 ≠ csvName outputname i) := by
  have hchar : (chunkify (⟨[]⟩ : FS Row) rows chunk_size outputname).files
      = (mkBz2Files outputname 1 (chunkList chunk_size rows)).reverse := by
    have h := chunkifyAux_files outputname (chunkList chunk_size rows) 1 []
      (fun p hp => absurd hp (List.not_mem_nil p))
    rw [chunkify, h, List.append_nil]
  refine ⟨?_, ?_, ?_, ?_⟩
  · rw [hchar, List.length_reverse, mkBz2Files_length, chunkList_length chunk_size hC]
  · rw [hchar, List.reverse_reverse, mkBz2Files_map_fst, chunkList_length chunk_size hC]
  · rw [hchar, List.reverse_reverse, mkBz2Files_map_rows, chunkList_flatten chunk_size hC]
  · intro p hp i
    rw [hchar, List.mem_reverse] at hp
    rcases mkBz2Files_mem_name outputname (chunkList chunk_size rows) 1 p hp with ⟨k, hk⟩
    rw [hk]
    intro hcontra
    exact csvName_ne_bz2Name outputname outputname i k hcontra.symm

/-- C3 (witness): five rows, chunk size 2, prefix "quotes-2020": three bz2
chunk files, named batches 1..3, concatenating to the source rows, no csv
left behind. -/
theorem chunkify_spec_witness :
    (0 < 2) ∧
    (((chunkify (⟨[]⟩ : FS Nat) [10, 20, 30, 40, 50] 2 "quotes-2020").files.length
      = (([10, 20, 30, 40, 50] : List Nat).length + 2 - 1) / 2) ∧
    ((chunkify (⟨[]⟩ : FS Nat) [10, 20, 30, 40, 50] 2 "quotes-2020").files.reverse.map Prod.fst
      = (List.range' 1 ((([10, 20, 30, 40, 50] : List Nat).length + 2 - 1) / 2)).map
          (bz2Name "quotes-2020")) ∧
    (((chunkify (⟨[]⟩ : FS Nat) [10, 20, 30, 40, 50] 2 "quotes-2020").files.reverse.map
        (fun p => contentRows p.2)).flatten = [10, 20, 30, 40, 50]) ∧
    (∀ p ∈ (chunkify (⟨[]⟩ : FS Nat) [10, 20, 30, 40, 50] 2 "quotes-2020").files,
      ∀ i : Nat, p.1 ≠ csvName "quotes-2020" i)) :=
  ⟨by decide, chunkify_spec Nat [10, 20, 30, 40, 50] 2 "quotes-2020" (by decide)⟩
